import Mathlib

/-!
Shallow embedding of the `tracing-line-filter` crate (`src/lib.rs`).

The crate provides a `LineFilter`: two allow-lists of `(identifier, line)`
pairs (one keyed by module path, one keyed by file path) plus an optional
fallback `EnvFilter`.  Per-record admission (`enabled`) and the per-callsite
interest query (`register_callsite`) first test exact membership of the
record's location in the allow-lists and otherwise delegate to the fallback.

Modelling choices:
* Rust `HashSet<(Cow<str>, u32)>` becomes a `List (String × Nat)` with
  set-like insertion (`hsInsert`) and membership via `List.contains`;
  `Cow` equality is string-content equality, so `String` keys are faithful.
* OS paths (`&Path`, which on Unix are arbitrary byte sequences, not
  necessarily UTF-8) become `List Nat` of byte values; the `Path`
  operations used by the crate (`is_absolute`, `extension`,
  `OsStr::to_str`, `Path::to_str`, `Path::display`) are modelled on bytes,
  including strict and lossy UTF-8 decoding.
* The external `EnvFilter` is an opaque collaborator: a record of its two
  boolean/interest decision functions.  The ambient `Context` is an
  arbitrary type parameter `Ctx`, never inspected by the filter itself.
* `&mut self` mutation becomes explicit state passing: fallible mutators
  return the (possibly unchanged) filter together with an optional
  `BadPath` error.
-/

namespace LineFilterModel

/-- The tri-state callsite interest verdict of `tracing_core`
(`Interest::always` / `Interest::sometimes` / `Interest::never`). -/
inductive Interest where
  | always : Interest
  | sometimes : Interest
  | never : Interest
deriving DecidableEq, Repr

/-- The fields of `tracing_core::Metadata` that the filter inspects:
`target()` (always present), `module_path()`, `file()` (both optional,
valid UTF-8 when present) and `line()` (optional `u32`). -/
structure Metadata where
  target : String
  module_path : Option String
  file : Option String
  line : Option Nat
deriving DecidableEq, Repr

/-- The external `tracing_subscriber::EnvFilter`, treated as an opaque
collaborator: its per-record boolean decision and its per-callsite
interest verdict.  `Ctx` is the opaque ambient `layer::Context`. -/
structure EnvFilter (Ctx : Type) where
  enabled : Metadata → Ctx → Bool
  register_callsite : Metadata → Interest

/-- Set-like insertion into a list, mirroring `HashSet::insert`:
a duplicate insert leaves the set unchanged. -/
def hsInsert (x : String × Nat) (s : List (String × Nat)) : List (String × Nat) :=
  if x ∈ s then s else x :: s

/-- The `LineFilter` struct (src/lib.rs lines 121-125): the two allow-lists and the
optional fallback `EnvFilter`. -/
structure LineFilter (Ctx : Type) where
  by_module : List (String × Nat)
  by_file : List (String × Nat)
  env : Option (EnvFilter Ctx)

/-- Model of `LineFilter::default()` / `LineFilter::new()`: empty allow-lists, no
fallback filter. -/
def LineFilter.new (Ctx : Type) : LineFilter Ctx :=
  { by_module := [], by_file := [], env := none }

/-- Model of `LineFilter::with_env_filter` (lines 160-163): stores the fallback,
replacing any previous one. -/
def LineFilter.with_env_filter {Ctx : Type} (f : LineFilter Ctx) (env : EnvFilter Ctx) :
    LineFilter Ctx :=
  { f with env := some env }

/-- Model of `LineFilter::enable_by_mod` (lines 223-226): inserts `(module, line)`
into `by_module`. -/
def LineFilter.enable_by_mod {Ctx : Type} (f : LineFilter Ctx) (module : String) (line : Nat) :
    LineFilter Ctx :=
  { f with by_module := hsInsert (module, line) f.by_module }

/-- Model of `LineFilter::with_modules` (lines 319-328): extends `by_module` with
every `(module, line)` pair in order. -/
def LineFilter.with_modules {Ctx : Type} (f : LineFilter Ctx) :
    List (String × Nat) → LineFilter Ctx
  | [] => f
  | (module, line) :: rest => (f.enable_by_mod module line).with_modules rest

/-- Model of `LineFilter::contains` (lines 348-365): if the metadata has a line,
look up `(module_path or target, line)` in `by_module`, then (if a file is
present) `(file, line)` in `by_file`; either match suffices. -/
def LineFilter.contains {Ctx : Type} (f : LineFilter Ctx) (metadata : Metadata) : Bool :=
  match metadata.line with
  | some line =>
    let module := metadata.module_path.getD metadata.target
    if f.by_module.contains (module, line) then
      true
    else
      match metadata.file with
      | some file => f.by_file.contains (file, line)
      | none => false
  | none => false

/-- Is `b` a UTF-8 continuation byte (`0x80..=0xBF`)? -/
def isCont (b : Nat) : Bool :=
  0x80 ≤ b && b ≤ 0xBF

/-- Valid range of the second byte of a three-byte UTF-8 sequence with
lead byte `b` (excludes overlong encodings for `0xE0` and surrogate code
points for `0xED`). -/
def isCont3 (b c : Nat) : Bool :=
  if b = 0xE0 then 0xA0 ≤ c && c ≤ 0xBF
  else if b = 0xED then 0x80 ≤ c && c ≤ 0x9F
  else isCont c

/-- Valid range of the second byte of a four-byte UTF-8 sequence with lead
byte `b` (excludes overlong encodings for `0xF0` and code points above
`U+10FFFF` for `0xF4`). -/
def isCont4 (b c : Nat) : Bool :=
  if b = 0xF0 then 0x90 ≤ c && c ≤ 0xBF
  else if b = 0xF4 then 0x80 ≤ c && c ≤ 0x8F
  else isCont c

/-- Strict UTF-8 decoding of a byte sequence, mirroring Rust's
`str::from_utf8` validation (rejects overlong encodings, surrogates, and
code points above `U+10FFFF`): `none` when the bytes are not valid UTF-8,
otherwise the decoded characters. -/
def utf8Decode : List Nat → Option (List Char)
  | [] => some []
  | b :: rest =>
    if b < 0x80 then
      (utf8Decode rest).map (fun cs => Char.ofNat b :: cs)
    else if b < 0xC2 then none
    else if b ≤ 0xDF then
      match rest with
      | c1 :: r =>
        if isCont c1 then
          (utf8Decode r).map (fun cs => Char.ofNat ((b - 0xC0) * 0x40 + (c1 - 0x80)) :: cs)
        else none
      | [] => none
    else if b ≤ 0xEF then
      match rest with
      | c1 :: c2 :: r =>
        if isCont3 b c1 && isCont c2 then
          (utf8Decode r).map (fun cs =>
            Char.ofNat (((b - 0xE0) * 0x40 + (c1 - 0x80)) * 0x40 + (c2 - 0x80)) :: cs)
        else none
      | _ => none
    else if b ≤ 0xF4 then
      match rest with
      | c1 :: c2 :: c3 :: r =>
        if isCont4 b c1 && isCont c2 && isCont c3 then
          (utf8Decode r).map (fun cs =>
            Char.ofNat ((((b - 0xF0) * 0x40 + (c1 - 0x80)) * 0x40 + (c2 - 0x80)) * 0x40
              + (c3 - 0x80)) :: cs)
        else none
      | _ => none
    else none

/-- Lossy UTF-8 decoding, mirroring Rust's `String::from_utf8_lossy` as
used by `Path::display`: each maximal invalid subpart is replaced by one
`U+FFFD` replacement character. -/
def utf8Lossy : List Nat → List Char
  | [] => []
  | b :: rest =>
    if b < 0x80 then Char.ofNat b :: utf8Lossy rest
    else if b < 0xC2 then Char.ofNat 0xFFFD :: utf8Lossy rest
    else if b ≤ 0xDF then
      match rest with
      | c1 :: r =>
        if isCont c1 then
          Char.ofNat ((b - 0xC0) * 0x40 + (c1 - 0x80)) :: utf8Lossy r
        else Char.ofNat 0xFFFD :: utf8Lossy (c1 :: r)
      | [] => [Char.ofNat 0xFFFD]
    else if b ≤ 0xEF then
      match rest with
      | c1 :: rest1 =>
        if isCont3 b c1 then
          match rest1 with
          | c2 :: r =>
            if isCont c2 then
              Char.ofNat (((b - 0xE0) * 0x40 + (c1 - 0x80)) * 0x40 + (c2 - 0x80)) :: utf8Lossy r
            else Char.ofNat 0xFFFD :: utf8Lossy (c2 :: r)
          | [] => [Char.ofNat 0xFFFD]
        else Char.ofNat 0xFFFD :: utf8Lossy (c1 :: rest1)
      | [] => [Char.ofNat 0xFFFD]
    else if b ≤ 0xF4 then
      match rest with
      | c1 :: rest1 =>
        if isCont4 b c1 then
          match rest1 with
          | c2 :: rest2 =>
            if isCont c2 then
              match rest2 with
              | c3 :: r =>
                if isCont c3 then
                  Char.ofNat ((((b - 0xF0) * 0x40 + (c1 - 0x80)) * 0x40 + (c2 - 0x80)) * 0x40
                    + (c3 - 0x80)) :: utf8Lossy r
                else Char.ofNat 0xFFFD :: utf8Lossy (c3 :: r)
              | [] => [Char.ofNat 0xFFFD]
            else Char.ofNat 0xFFFD :: utf8Lossy (c2 :: rest2)
          | [] => [Char.ofNat 0xFFFD]
        else Char.ofNat 0xFFFD :: utf8Lossy (c1 :: rest1)
      | [] => [Char.ofNat 0xFFFD]
    else Char.ofNat 0xFFFD :: utf8Lossy rest

/-- Model of `OsStr::to_str` / `Path::to_str` on Unix: strict UTF-8 decoding of the
underlying bytes. -/
def osToStr (p : List Nat) : Option String :=
  (utf8Decode p).map String.mk

/-- Model of `Path::display` on Unix: lossy UTF-8 rendering of the bytes. -/
def pathDisplay (p : List Nat) : String :=
  String.mk (utf8Lossy p)

/-- Model of `Path::is_absolute` on Unix: the path has a root, i.e. begins with the
separator byte `/`. -/
def isAbsolute (p : List Nat) : Bool :=
  match p with
  | b :: _ => b = 47
  | [] => false

/-- Split a byte sequence at every `/` separator byte. -/
def splitSlash : List Nat → List (List Nat)
  | [] => [[]]
  | b :: rest =>
    match splitSlash rest with
    | [] => [[]]
    | c :: cs => if b = 47 then [] :: c :: cs else (b :: c) :: cs

/-- Model of `Path::file_name` on Unix: the last path component, skipping empty
components and `.`; `none` when the path has no components or ends in
`..`. -/
def fileName (p : List Nat) : Option (List Nat) :=
  let chunks := (splitSlash p).filter (fun c => !c.isEmpty && c ≠ [46])
  match chunks.getLast? with
  | some c => if c = [46, 46] then none else some c
  | none => none

/-- Model of `Path::extension`: the part of the file name after its last `.`,
provided the part before that `.` is non-empty (so `.hidden` has no
extension); `none` when there is no file name or no embedded `.`. -/
def extension (p : List Nat) : Option (List Nat) :=
  (fileName p).bind fun f =>
    match (((f.enum).filter (fun q => q.2 == 46)).map (fun q => q.1)).getLast? with
    | some 0 => none
    | some (i + 1) => some (f.drop (i + 2))
    | none => none

/-- The `BadPath` struct (src/lib.rs lines 129-132): the rejected path and a static
message. -/
structure BadPath where
  path : List Nat
  message : String
deriving DecidableEq, Repr

/-- Model of `impl Display for BadPath` (lines 397-406): renders as
`invalid path '<path>': <message>` with the path shown via
`Path::display`. -/
def BadPath.display (e : BadPath) : String :=
  "invalid path \x27" ++ pathDisplay e.path ++ "\x27: " ++ e.message

/-- Model of `LineFilter::enable_by_file` (lines 253-274): validates that the path
is absolute, has extension decoding to the UTF-8 string `rs`, and is valid
UTF-8 as a whole (in that order); on success inserts the decoded
`(path, line)` key into `by_file`.  `&mut self` plus `Result<_, BadPath>`
is modelled as the post-state paired with an optional error: on error the
returned state is the unchanged input. -/
def LineFilter.enable_by_file {Ctx : Type} (f : LineFilter Ctx) (file : List Nat) (line : Nat) :
    LineFilter Ctx × Option BadPath :=
  if !isAbsolute file then
    (f, some { path := file, message := "file paths must be absolute" })
  else if ((extension file).bind osToStr) ≠ some "rs" then
    (f, some { path := file, message := "files must be Rust source code files" })
  else
    match osToStr file with
    | none => (f, some { path := file, message := "file paths must be valid utf-8" })
    | some s => ({ f with by_file := hsInsert (s, line) f.by_file }, none)

/-- Model of `LineFilter::with_files` (lines 335-346): applies `enable_by_file` to
each `(path, line)` pair in order; the `?` operator stops at the first
error, leaving the mutations of the successful prefix in place. -/
def LineFilter.with_files {Ctx : Type} (f : LineFilter Ctx) :
    List (List Nat × Nat) → LineFilter Ctx × Option BadPath
  | [] => (f, none)
  | (file, line) :: rest =>
    match f.enable_by_file file line with
    | (f2, none) => f2.with_files rest
    | (f2, some e) => (f2, some e)

/-- Model of `Layer::register_callsite` for `LineFilter` (lines 372-381): `always`
on an allow-list match, otherwise the fallback's verdict, or `never` when
no fallback is configured. -/
def LineFilter.register_callsite {Ctx : Type} (f : LineFilter Ctx) (metadata : Metadata) :
    Interest :=
  if f.contains metadata then
    Interest.always
  else
    match f.env with
    | some env => env.register_callsite metadata
    | none => Interest.never

/-- Model of `Layer::enabled` for `LineFilter` (lines 383-392): `true` on an
allow-list match, otherwise the fallback's decision, or `false` when no
fallback is configured. -/
def LineFilter.enabled {Ctx : Type} (f : LineFilter Ctx) (metadata : Metadata) (cx : Ctx) :
    Bool :=
  if f.contains metadata then
    true
  else
    match f.env with
    | some env => env.enabled metadata cx
    | none => false

/-! Concrete objects used by witnesses. -/

/-- Path bytes of the relative path `a.rs`. -/
def relPath : List Nat := [97, 46, 114, 115]

/-- Path bytes of the absolute Rust source path `/a/b.rs`. -/
def absGood : List Nat := [47, 97, 47, 98, 46, 114, 115]

/-- Path bytes of a second absolute Rust source path `/c.rs`. -/
def absGood2 : List Nat := [47, 99, 46, 114, 115]

/-- Path bytes of `/a.<0xFF>`: absolute, with an extension that is not
valid UTF-8 (hence the whole path is not valid UTF-8 either). -/
def absBadExt : List Nat := [47, 97, 46, 255]

/-- Path bytes of `/<0xFF>.rs`: absolute, extension `rs`, but the full
path is not valid UTF-8. -/
def absBadUtf : List Nat := [47, 255, 46, 114, 115]

/-- A fallback filter that admits every record and reports `sometimes`
interest for every callsite. -/
def envTrue : EnvFilter Unit :=
  { enabled := fun _ _ => true, register_callsite := fun _ => Interest.sometimes }

/-- A filter enabling `("app::worker", 10)` by module, with no fallback. -/
def filterMod : LineFilter Unit := (LineFilter.new Unit).enable_by_mod "app::worker" 10

/-- The same filter composed with the `envTrue` fallback. -/
def filterModEnv : LineFilter Unit := filterMod.with_env_filter envTrue

/-- A filter whose `by_file` allow-list holds `("/src/app.rs", 30)` and
whose `by_module` allow-list is empty. -/
def filterFile : LineFilter Unit :=
  { by_module := [], by_file := [("/src/app.rs", 30)], env := none }

/-- A descriptor matching `filterMod`'s allow-list entry. -/
def mdHit : Metadata :=
  { target := "app::worker", module_path := some "app::worker", file := none, line := some 10 }

/-- A descriptor at the registered module but a different line. -/
def mdMiss : Metadata :=
  { target := "app::worker", module_path := some "app::worker", file := none, line := some 11 }

/-- A descriptor with no line number at a registered module. -/
def mdNoLine : Metadata :=
  { target := "app::worker", module_path := some "app::worker", file := some "/src/app.rs",
    line := none }

/-- A descriptor matching `filterFile`'s file entry, whose module key is
absent from `by_module`. -/
def mdFile : Metadata :=
  { target := "app", module_path := some "app", file := some "/src/app.rs", line := some 30 }

/-! Helper lemmas. -/

/-- Inserting a key into a set makes it a member. -/
theorem mem_hsInsert_self (x : String × Nat) (s : List (String × Nat)) :
    x ∈ hsInsert x s := by
  unfold hsInsert
  split
  · assumption
  · exact List.mem_cons_self x s

/-! Claim theorems. -/

/-- C1: `enabled` returns true immediately when `contains` is true; when
`contains` is false it returns exactly the configured fallback
`EnvFilter`'s `enabled` decision for the same descriptor and context if
one is configured, and false if none is configured. -/
theorem enabled_allowlist_first {Ctx : Type} (f : LineFilter Ctx) (m : Metadata) (cx : Ctx) :
    (f.contains m = true → f.enabled m cx = true)
    ∧ (∀ env, f.contains m = false → f.env = some env →
        f.enabled m cx = env.enabled m cx)
    ∧ (f.contains m = false → f.env = none → f.enabled m cx = false) := by
  unfold LineFilter.enabled
  exact ⟨fun h => by simp [h], fun env hc he => by simp [hc, he], fun hc he => by simp [hc, he]⟩

/-- Witness for C1: with `("app::worker", 10)` enabled, a matching
descriptor is admitted; a non-matching descriptor gets the fallback's
decision (here `true`) when a fallback is configured, and `false` when
none is. -/
theorem enabled_allowlist_first_witness :
    filterMod.enabled mdHit () = true
    ∧ filterModEnv.enabled mdMiss () = true
    ∧ filterMod.enabled mdMiss () = false := by
  refine ⟨(enabled_allowlist_first filterMod mdHit ()).1 (by decide), ?_,
    (enabled_allowlist_first filterMod mdMiss ()).2.2 (by decide) rfl⟩
  exact ((enabled_allowlist_first filterModEnv mdMiss ()).2.1 envTrue (by decide) rfl).trans rfl

/-- C2: `register_callsite` returns `always` when `contains` is true;
when `contains` is false it returns the configured fallback `EnvFilter`'s
own `register_callsite` verdict if one is configured, and `never` if none
is configured. -/
theorem register_callsite_allowlist_first {Ctx : Type} (f : LineFilter Ctx) (m : Metadata) :
    (f.contains m = true → f.register_callsite m = Interest.always)
    ∧ (∀ env, f.contains m = false → f.env = some env →
        f.register_callsite m = env.register_callsite m)
    ∧ (f.contains m = false → f.env = none → f.register_callsite m = Interest.never) := by
  unfold LineFilter.register_callsite
  exact ⟨fun h => by simp [h], fun env hc he => by simp [hc, he], fun hc he => by simp [hc, he]⟩

/-- Witness for C2: a matching callsite is `always` interesting; a
non-matching one gets the fallback's verdict (here `sometimes`) when a
fallback is configured, and `never` when none is. -/
theorem register_callsite_allowlist_first_witness :
    filterMod.register_callsite mdHit = Interest.always
    ∧ filterModEnv.register_callsite mdMiss = Interest.sometimes
    ∧ filterMod.register_callsite mdMiss = Interest.never := by
  refine ⟨(register_callsite_allowlist_first filterMod mdHit).1 (by decide), ?_,
    (register_callsite_allowlist_first filterMod mdMiss).2.2 (by decide) rfl⟩
  exact ((register_callsite_allowlist_first filterModEnv mdMiss).2.1 envTrue
    (by decide) rfl).trans rfl

/-- C3: after `enable_by_mod module line` (from any filter state, with or
without a fallback), `contains` returns true on every descriptor whose
module path is exactly `module` and whose line is exactly `line`. -/
theorem contains_after_enable_by_mod {Ctx : Type} (f : LineFilter Ctx) (module target : String)
    (file : Option String) (line : Nat) :
    (f.enable_by_mod module line).contains
      { target := target, module_path := some module, file := file, line := some line } = true := by
  unfold LineFilter.contains LineFilter.enable_by_mod
  simp
  exact Or.inl (mem_hsInsert_self _ _)

/-- C4: `contains` keys the `by_module` lookup on the module path,
substituting the target string only when the module path is absent: when
a module path is present the decision is independent of the target, and
when it is absent the decision is the same as if the target were the
module path. -/
theorem contains_target_substitution {Ctx : Type} (f : LineFilter Ctx) (m : Metadata) :
    (∀ mp t2, m.module_path = some mp →
        f.contains m = f.contains { m with target := t2 })
    ∧ (m.module_path = none →
        f.contains m = f.contains { m with module_path := some m.target }) := by
  constructor
  · intro mp t2 h
    unfold LineFilter.contains
    cases hl : m.line <;> simp [h]
  · intro h
    unfold LineFilter.contains
    cases hl : m.line <;> simp [h]

/-- Witness for C4: with a module path present, changing the target does
not change the decision; with no module path, the target is used as the
module key. -/
theorem contains_target_substitution_witness :
    filterMod.contains
        { target := "x", module_path := some "app::worker", file := none, line := some 10 }
      = filterMod.contains
        { target := "y", module_path := some "app::worker", file := none, line := some 10 }
    ∧ filterMod.contains
        { target := "app::worker", module_path := none, file := none, line := some 10 }
      = filterMod.contains
        { target := "app::worker", module_path := some "app::worker", file := none,
          line := some 10 } :=
  ⟨(contains_target_substitution filterMod
      { target := "x", module_path := some "app::worker", file := none, line := some 10 }).1
      "app::worker" "y" rfl,
   (contains_target_substitution filterMod
      { target := "app::worker", module_path := none, file := none, line := some 10 }).2 rfl⟩

/-- C5: a descriptor with no line number never matches, whatever the
allow-lists hold. -/
theorem contains_no_line {Ctx : Type} (f : LineFilter Ctx) (m : Metadata)
    (h : m.line = none) : f.contains m = false := by
  unfold LineFilter.contains
  simp [h]

/-- Witness for C5: a line-less descriptor at a registered module and a
registered file does not match. -/
theorem contains_no_line_witness : filterMod.contains mdNoLine = false :=
  contains_no_line filterMod mdNoLine rfl

/-- C6: a descriptor carrying a file and a line whose `(file, line)` pair
is in `by_file` matches, regardless of the module lookup's outcome. -/
theorem contains_via_by_file {Ctx : Type} (f : LineFilter Ctx) (m : Metadata)
    (file : String) (line : Nat) (hf : m.file = some file) (hl : m.line = some line)
    (hmem : f.by_file.contains (file, line) = true) :
    f.contains m = true := by
  unfold LineFilter.contains
  rw [hl]
  simp only [hf]
  split
  · rfl
  · simpa using hmem

/-- Witness for C6: `("/src/app.rs", 30)` is in the file set, the
descriptor's module key `app` is absent from `by_module`, and the
descriptor matches via `by_file`. -/
theorem contains_via_by_file_witness : filterFile.contains mdFile = true :=
  contains_via_by_file filterFile mdFile "/src/app.rs" 30 rfl rfl (by decide)

/-- A failing `enable_by_file` returns before the `by_file.insert`, so the
post-state is the unchanged input filter. -/
theorem enable_by_file_error_preserves {Ctx : Type} (f : LineFilter Ctx) (file : List Nat)
    (line : Nat) (e : BadPath) (h : (f.enable_by_file file line).2 = some e) :
    (f.enable_by_file file line).1 = f := by
  unfold LineFilter.enable_by_file at h ⊢
  cases h1 : isAbsolute file with
  | false => simp [h1]
  | true =>
    by_cases h2 : ((extension file).bind osToStr) = some "rs"
    · cases h3 : osToStr file with
      | none => simp [h1, h2, h3]
      | some s => simp [h1, h2, h3] at h
    · simp [h1, h2]

/-- C7: `enable_by_file` rejects, with a `BadPath` carrying the offending
path and without touching the filter, every path that is relative, whose
extension does not read as the UTF-8 string `rs`, or that is not valid
UTF-8; an absolute path with extension `rs` that decodes to the UTF-8
string `s` is accepted, inserting `(s, line)` into `by_file`. -/
theorem enable_by_file_validation {Ctx : Type} (f : LineFilter Ctx) (file : List Nat)
    (line : Nat) :
    ((isAbsolute file = false ∨ (extension file).bind osToStr ≠ some "rs"
        ∨ osToStr file = none) →
      (∃ e : BadPath, (f.enable_by_file file line).2 = some e ∧ e.path = file)
      ∧ (f.enable_by_file file line).1 = f)
    ∧ (∀ s, isAbsolute file = true → (extension file).bind osToStr = some "rs" →
        osToStr file = some s →
        (f.enable_by_file file line).2 = none
        ∧ (f.enable_by_file file line).1.by_file = hsInsert (s, line) f.by_file) := by
  constructor
  · intro h
    have herr : ∃ e : BadPath, (f.enable_by_file file line).2 = some e ∧ e.path = file := by
      cases h1 : isAbsolute file with
      | false =>
        exact ⟨⟨file, "file paths must be absolute"⟩,
          by simp [LineFilter.enable_by_file, h1], rfl⟩
      | true =>
        by_cases h2 : ((extension file).bind osToStr) = some "rs"
        · cases h3 : osToStr file with
          | none =>
            exact ⟨⟨file, "file paths must be valid utf-8"⟩,
              by simp [LineFilter.enable_by_file, h1, h2, h3], rfl⟩
          | some s =>
            rcases h with h | h | h
            · exact absurd h1 (by simp [h])
            · exact absurd h2 h
            · exact absurd h3 (by simp [h])
        · exact ⟨⟨file, "files must be Rust source code files"⟩,
            by simp [LineFilter.enable_by_file, h1, h2], rfl⟩
    obtain ⟨e, he, hp⟩ := herr
    exact ⟨⟨e, he, hp⟩, enable_by_file_error_preserves f file line e he⟩
  · intro s h1 h2 h3
    unfold LineFilter.enable_by_file
    simp [h1, h2, h3]

/-- Witness for C7: the relative path `a.rs` is rejected with a `BadPath`
carrying it, leaving the filter unchanged; the absolute path `/a/b.rs` is
accepted and `("/a/b.rs", 3)` is inserted into `by_file`. -/
theorem enable_by_file_validation_witness :
    ((∃ e : BadPath, ((LineFilter.new Unit).enable_by_file relPath 1).2 = some e
        ∧ e.path = relPath)
      ∧ ((LineFilter.new Unit).enable_by_file relPath 1).1 = LineFilter.new Unit)
    ∧ (((LineFilter.new Unit).enable_by_file absGood 3).2 = none
      ∧ ((LineFilter.new Unit).enable_by_file absGood 3).1.by_file
          = hsInsert ("/a/b.rs", 3) (LineFilter.new Unit).by_file) :=
  ⟨(enable_by_file_validation (LineFilter.new Unit) relPath 1).1 (Or.inl rfl),
   (enable_by_file_validation (LineFilter.new Unit) absGood 3).2 "/a/b.rs"
     rfl (by decide) (by decide)⟩

/-- When a prefix of the input list validates successfully, `with_files`
on the longer list continues from the state reached after that prefix. -/
theorem with_files_append_of_prefix_ok {Ctx : Type} (f : LineFilter Ctx)
    (pre rest : List (List Nat × Nat)) (h : (f.with_files pre).2 = none) :
    f.with_files (pre ++ rest) = ((f.with_files pre).1).with_files rest := by
  induction pre generalizing f with
  | nil => simp [LineFilter.with_files]
  | cons q pre ih =>
    obtain ⟨file, line⟩ := q
    rcases hq : f.enable_by_file file line with ⟨f2, oe⟩
    cases oe with
    | none =>
      have h2 : (f2.with_files pre).2 = none := by
        simpa [LineFilter.with_files, hq] using h
      simpa [LineFilter.with_files, hq] using ih f2 h2
    | some e => simp [LineFilter.with_files, hq] at h

/-- C8: `with_files` applies `enable_by_file` to each pair in order: after
a successfully-validated prefix it continues from the state that prefix
produced, and at the first invalid entry it stops, reporting exactly that
entry's `BadPath` error, with the state holding exactly the
successfully-validated entries preceding it. -/
theorem with_files_stops_at_first_error {Ctx : Type} (f : LineFilter Ctx)
    (pre rest : List (List Nat × Nat)) (p : List Nat) (line : Nat)
    (hpre : (f.with_files pre).2 = none) :
    f.with_files (pre ++ rest) = ((f.with_files pre).1).with_files rest
    ∧ ∀ e : BadPath, (((f.with_files pre).1).enable_by_file p line).2 = some e →
        f.with_files (pre ++ (p, line) :: rest) = ((f.with_files pre).1, some e) := by
  refine ⟨with_files_append_of_prefix_ok f pre rest hpre, fun e he => ?_⟩
  rw [with_files_append_of_prefix_ok f pre ((p, line) :: rest) hpre]
  rcases hq : ((f.with_files pre).1).enable_by_file p line with ⟨g2, oe⟩
  have hoe : oe = some e := by rw [hq] at he; exact he
  subst hoe
  have hg2 : g2 = (f.with_files pre).1 := by
    have := enable_by_file_error_preserves ((f.with_files pre).1) p line e (by rw [hq])
    rw [hq] at this
    exact this
  simp [LineFilter.with_files, hq, hg2]

/-- Witness for C8: with `[/a/b.rs valid, a.rs invalid, /c.rs valid]`, the
run stops at `a.rs`, reports its `BadPath`, and the state is the one
produced by the valid first entry alone. -/
theorem with_files_stops_at_first_error_witness :
    (LineFilter.new Unit).with_files ([(absGood, 3)] ++ (relPath, 1) :: [(absGood2, 5)])
      = (((LineFilter.new Unit).with_files [(absGood, 3)]).1,
          some { path := relPath, message := "file paths must be absolute" }) :=
  (with_files_stops_at_first_error (LineFilter.new Unit) [(absGood, 3)] [(absGood2, 5)]
      relPath 1 (by decide)).2
    ⟨relPath, "file paths must be absolute"⟩ (by decide)

/-- C9 counterexample: the `BadPath` produced for the relative path
`a.rs` carries the message `file paths must be absolute`, which is none of
the three messages the claim lists (`must be absolute`,
`must be a source file`, `must be valid text`). -/
theorem badpath_message_cex :
    ((LineFilter.new Unit).enable_by_file relPath 1).2
        = some { path := relPath, message := "file paths must be absolute" }
    ∧ "file paths must be absolute" ≠ "must be absolute"
    ∧ "file paths must be absolute" ≠ "must be a source file"
    ∧ "file paths must be absolute" ≠ "must be valid text" := by
  refine ⟨by decide, ?_, ?_, ?_⟩ <;> decide

/-- C9 amended: every `BadPath` error carries the rejected path and a
fixed, static message that is one of exactly `file paths must be
absolute`, `files must be Rust source code files`, `file paths must be
valid utf-8`; its Display rendering combines the displayed path and that
message as `invalid path '<path>': <message>`. -/
theorem badpath_message_display {Ctx : Type} (f : LineFilter Ctx) (file : List Nat)
    (line : Nat) (e : BadPath) (h : (f.enable_by_file file line).2 = some e) :
    e.path = file
    ∧ (e.message = "file paths must be absolute"
        ∨ e.message = "files must be Rust source code files"
        ∨ e.message = "file paths must be valid utf-8")
    ∧ e.display = "invalid path \x27" ++ pathDisplay file ++ "\x27: " ++ e.message := by
  unfold LineFilter.enable_by_file at h
  split at h
  · obtain rfl : BadPath.mk file "file paths must be absolute" = e := Option.some.inj h
    exact ⟨rfl, Or.inl rfl, rfl⟩
  · split at h
    · obtain rfl : BadPath.mk file "files must be Rust source code files" = e :=
        Option.some.inj h
      exact ⟨rfl, Or.inr (Or.inl rfl), rfl⟩
    · split at h
      · obtain rfl : BadPath.mk file "file paths must be valid utf-8" = e := Option.some.inj h
        exact ⟨rfl, Or.inr (Or.inr rfl), rfl⟩
      · exact absurd h (by simp)

/-- Witness for C9's amended claim, at the relative path `a.rs`. -/
theorem badpath_message_display_witness :
    (BadPath.mk relPath "file paths must be absolute").path = relPath
    ∧ ((BadPath.mk relPath "file paths must be absolute").message = "file paths must be absolute"
        ∨ (BadPath.mk relPath "file paths must be absolute").message
            = "files must be Rust source code files"
        ∨ (BadPath.mk relPath "file paths must be absolute").message
            = "file paths must be valid utf-8")
    ∧ (BadPath.mk relPath "file paths must be absolute").display
        = "invalid path \x27" ++ pathDisplay relPath ++ "\x27: "
            ++ (BadPath.mk relPath "file paths must be absolute").message :=
  badpath_message_display (LineFilter.new Unit) relPath 1
    ⟨relPath, "file paths must be absolute"⟩ (by decide)

/-- C10: the validation checks run in the order absolute, extension,
UTF-8: an absolute path whose extension does not read as the UTF-8 string
`rs` fails with the source-file message (never the UTF-8 message), and the
UTF-8 message is only produced for an absolute path whose extension reads
as `rs` but whose full path is not valid UTF-8. -/
theorem enable_by_file_check_order {Ctx : Type} (f : LineFilter Ctx) (file : List Nat)
    (line : Nat) :
    (isAbsolute file = true → (extension file).bind osToStr ≠ some "rs" →
        (f.enable_by_file file line).2
          = some { path := file, message := "files must be Rust source code files" })
    ∧ (∀ e : BadPath, (f.enable_by_file file line).2 = some e →
        e.message = "file paths must be valid utf-8" →
        isAbsolute file = true ∧ (extension file).bind osToStr = some "rs"
          ∧ osToStr file = none) := by
  constructor
  · intro h1 h2
    unfold LineFilter.enable_by_file
    simp [h1, h2]
  · intro e h hm
    unfold LineFilter.enable_by_file at h
    cases h1 : isAbsolute file with
    | false =>
      rw [h1] at h
      obtain rfl : BadPath.mk file "file paths must be absolute" = e := Option.some.inj h
      have hne : ("file paths must be absolute" : String) ≠ "file paths must be valid utf-8" :=
        by decide
      exact absurd hm hne
    | true =>
      rw [h1] at h
      by_cases h2 : ((extension file).bind osToStr) = some "rs"
      · cases h3 : osToStr file with
        | none =>
          exact ⟨rfl, h2, rfl⟩
        | some s =>
          simp [h2, h3] at h
      · rw [if_pos h2] at h
        obtain rfl : BadPath.mk file "files must be Rust source code files" = e :=
          Option.some.inj h
        have hne :
            ("files must be Rust source code files" : String) ≠ "file paths must be valid utf-8" :=
          by decide
        exact absurd hm hne

/-- Witness for C10: `/a.<0xFF>` (absolute, extension not readable as
UTF-8 `rs`, full path also invalid UTF-8) gets the source-file error, not
the UTF-8 error; and the UTF-8 error at `/<0xFF>.rs` implies the
absolute and extension checks passed while full-path decoding failed. -/
theorem enable_by_file_check_order_witness :
    ((LineFilter.new Unit).enable_by_file absBadExt 1).2
        = some { path := absBadExt, message := "files must be Rust source code files" }
    ∧ (isAbsolute absBadUtf = true ∧ (extension absBadUtf).bind osToStr = some "rs"
        ∧ osToStr absBadUtf = none) :=
  ⟨(enable_by_file_check_order (LineFilter.new Unit) absBadExt 1).1 rfl (by decide),
   (enable_by_file_check_order (LineFilter.new Unit) absBadUtf 1).2
      ⟨absBadUtf, "file paths must be valid utf-8"⟩ (by decide) rfl⟩

end LineFilterModel
